import Mathlib

/-!
# Verification of the CSV/Excel date-range splitter

A shallow embedding of `src/excelsplitter/src/CSVDateSplitter.js`: the date
normalizer (`parseDate` / `isValidDate`), range validation (`validateDates`),
column resolution, and the row-partitioning loop of `transferToExcel`.

Modelling conventions:
* A JavaScript `Date` value is its time value in milliseconds since the Unix
  epoch, `Option Int`, with `none` standing for the *Invalid Date* sentinel
  (`NaN` time value).  The host time zone is modelled as UTC, so the
  "local-calendar-day" semantics of the source coincides with UTC days.
* `new Date(string)` (the environment's general parser) is modelled by the
  behaviour the ECMAScript standard actually specifies: the Date Time String
  Format, restricted here to the complete date form `YYYY-MM-DD` (the only
  form this application feeds it — HTML date inputs and ISO cells).  All
  other inputs are implementation-defined in JavaScript and are modelled as
  Invalid Date, which routes them into the source's explicit slash fallback.
* `Number(string)` is modelled for whitespace-trimmed optionally-signed
  decimal integer literals (`""` is 0); other strings are modelled as `NaN`
  (`none`).
* String helpers (`trim`, `toLowerCase`, `split`) are given explicit
  character-list definitions mirroring their JavaScript behaviour on the
  ASCII range.
-/

namespace ExcelSplitter

/-! ## Calendar arithmetic (proleptic Gregorian, days since 1970-01-01) -/

/-- Day count since 1970-01-01 of the civil date `(y, m, d)` with `m ∈ [1,12]`
(Gregorian; `d` may be out of range, counting on from the first of the month). -/
def daysFromCivil (y m d : Int) : Int :=
  let yy : Int := if m ≤ 2 then y - 1 else y
  let era : Int := Int.fdiv yy 400
  let yoe : Int := yy - era * 400
  let mp : Int := Int.emod (m + 9) 12
  let doy : Int := Int.fdiv (153 * mp + 2) 5 + d - 1
  let doe : Int := yoe * 365 + Int.fdiv yoe 4 - Int.fdiv yoe 100 + doy
  era * 146097 + doe - 719468

/-- Milliseconds per day. -/
def msPerDay : Int := 86400000

/-- ECMAScript `MakeDay(year, month, day)`: months overflow into years,
days overflow into subsequent months (`new Date(2024, 12, 40)` rolls over). -/
def makeDay (year month day : Int) : Int :=
  let ym : Int := year + Int.fdiv month 12
  let mn : Int := Int.emod month 12
  daysFromCivil ym (mn + 1) 1 + (day - 1)

/-- ECMAScript time-value clip bound: `8.64e15` ms. -/
def timeClipBound : Int := 8640000000000000

/-- The `new Date(year, monthIndex, day)` constructor: applies the legacy
two-digit-year rule (`0 ≤ year ≤ 99` means `1900 + year`), rolls months and
days over via `makeDay`, and clips to the representable range (`none` is
Invalid Date). -/
def jsMakeDate (year monthIndex day : Int) : Option Int :=
  let yr : Int := if 0 ≤ year ∧ year ≤ 99 then 1900 + year else year
  let t : Int := makeDay yr monthIndex day * msPerDay
  if t.natAbs ≤ 8640000000000000 then some t else none

/-- Is `y` a Gregorian leap year? -/
def isLeapYear (y : Int) : Bool :=
  (Int.emod y 4 == 0 && Int.emod y 100 != 0) || Int.emod y 400 == 0

/-- Number of days in month `m` of year `y` (`m ∈ [1,12]`). -/
def daysInMonth (y m : Int) : Int :=
  if m == 2 then (if isLeapYear y then 29 else 28)
  else if m == 4 || m == 6 || m == 9 || m == 11 then 30
  else 31

/-! ## Character/string primitives (JavaScript semantics, ASCII range) -/

/-- ASCII decimal digit. -/
def isDigitCh (c : Char) : Bool := 48 ≤ c.toNat && c.toNat ≤ 57

/-- Whitespace as trimmed by JavaScript `trim` / `Number` (ASCII range). -/
def isWsCh (c : Char) : Bool :=
  c.toNat == 32 || (9 ≤ c.toNat && c.toNat ≤ 13)

/-- Strip leading and trailing whitespace from a character list. -/
def trimChars (cs : List Char) : List Char :=
  ((cs.dropWhile isWsCh).reverse.dropWhile isWsCh).reverse

/-- JavaScript `String.prototype.trim`. -/
def jsTrim (s : String) : String := String.mk (trimChars s.toList)

/-- Lower-case an ASCII letter, leave anything else unchanged. -/
def asciiLower (c : Char) : Char :=
  if 65 ≤ c.toNat ∧ c.toNat ≤ 90 then Char.ofNat (c.toNat + 32) else c

/-- JavaScript `String.prototype.toLowerCase` (ASCII range). -/
def jsToLower (s : String) : String := String.mk (s.toList.map asciiLower)

/-- `split` on a single separator character, JavaScript semantics:
`"".split(c) = [""]`, and separators delimit (possibly empty) fields. -/
def splitChar (sep : Char) : List Char → List (List Char)
  | [] => [[]]
  | c :: cs =>
    let rest := splitChar sep cs
    if c == sep then [] :: rest
    else
      match rest with
      | [] => [[c]]
      | h :: t => (c :: h) :: t

/-- JavaScript `String.prototype.split` with a one-character separator. -/
def jsSplit (sep : Char) (s : String) : List String :=
  (splitChar sep s.toList).map String.mk

/-- Value of a string of ASCII digits. -/
def digitsToInt (cs : List Char) : Int :=
  cs.foldl (fun n c => n * 10 + ((c.toNat : Int) - 48)) 0

/-- `Number(string)` on a pre-trimmed character list: empty is `0`,
otherwise an optional sign followed by at least one digit; `none` is `NaN`. -/
def jsNumberChars : List Char → Option Int
  | [] => some 0
  | c :: cs =>
    if c == '+' then
      if cs ≠ [] ∧ cs.all isDigitCh then some (digitsToInt cs) else none
    else if c == '-' then
      if cs ≠ [] ∧ cs.all isDigitCh then some (-(digitsToInt cs)) else none
    else
      if (c :: cs).all isDigitCh then some (digitsToInt (c :: cs)) else none

/-- JavaScript `Number(string)` (integer literals; `none` is `NaN`). -/
def jsNumber (s : String) : Option Int := jsNumberChars (trimChars s.toList)

/-! ## `new Date(string)`: the ECMAScript Date Time String Format -/

/-- Do the characters form exactly `n` ASCII digits? -/
def isDigits (n : Nat) (cs : List Char) : Bool :=
  cs.length == n && cs.all isDigitCh

/-- `new Date(string)` / `Date.parse`: the ECMAScript-specified complete date
form `YYYY-MM-DD`, read as midnight UTC; the field values must denote an
actual calendar date and the result is clipped to the representable range.
Everything else is modelled as Invalid Date (`none`). -/
def jsDateParse (s : String) : Option Int :=
  match splitChar '-' s.toList with
  | [ys, ms, ds] =>
    if isDigits 4 ys && isDigits 2 ms && isDigits 2 ds then
      let y : Int := digitsToInt ys
      let m : Int := digitsToInt ms
      let d : Int := digitsToInt ds
      if 1 ≤ m ∧ m ≤ 12 ∧ 1 ≤ d ∧ d ≤ daysInMonth y m then
        let t : Int := daysFromCivil y m d * msPerDay
        if t.natAbs ≤ 8640000000000000 then some t else none
      else none
    else none
  | _ => none

/-! ## The date normalizer: `isValidDate` and `parseDate` -/

/-- `isValidDate(date)`: `date instanceof Date && !isNaN(date)`; on a `Date`
value this is exactly "not the Invalid Date sentinel". -/
def isValidDate : Option Int → Bool
  | some _ => true
  | none => false

/-- `parseDate(dateString)` from the source: `null` (outer `none`) on a
missing/empty cell; otherwise try the general parse, then the slash-delimited
`month/day/year` fallback with the two-digit-year `+2000` adjustment; each
stage returns its `Date` only if `isValidDate` accepts it. The result is
`null` or a `Date` value (which itself may in principle be Invalid, inner
`none`). -/
def parseDate (dateString : Option String) : Option (Option Int) :=
  match dateString with
  | none => none
  | some s =>
    if s = "" then none
    else
      let parsedDate := jsDateParse s
      if isValidDate parsedDate then some parsedDate
      else
        match jsSplit '/' s with
        | [monthS, dayS, yearS] =>
          match jsNumber monthS, jsNumber dayS, jsNumber yearS with
          | some month, some day, some year =>
            let year' := if year < 100 then year + 2000 else year
            let parsedDate2 := jsMakeDate year' (month - 1) day
            if isValidDate parsedDate2 then some parsedDate2 else none
          | _, _, _ => none
        | _ => none

/-! ## Records and the range filter (`transferToExcel`) -/

/-- A decoded data row: an association of column names to cell strings
(a JavaScript object as produced by the CSV decoder with `header: true`). -/
abbrev Record : Type := List (String × String)

/-- Property read `row[column]`: the first binding for the key, `undefined`
(`none`) if absent. -/
def getCell (row : Record) (column : String) : Option String :=
  (List.find? (fun p => p.1 == column) row).map Prod.snd

/-- JavaScript `<` between two `Date` values: compares time values, and is
`false` whenever either side is Invalid (`NaN`). -/
def jsLt : Option Int → Option Int → Bool
  | some a, some b => a < b
  | _, _ => false

/-- `start.setHours(0, 0, 0, 0)`: midnight of the (UTC-modelled) day
containing `t`. -/
def setHoursStart (t : Int) : Int := t - Int.emod t msPerDay

/-- `end.setHours(23, 59, 59, 999)`: last millisecond of the day
containing `t`. -/
def setHoursEnd (t : Int) : Int := t - Int.emod t msPerDay + (msPerDay - 1)

/-- The skip reason recorded for every excluded row. -/
def skipReason : String := "Date out of range or invalid format"

/-- One entry of `skippedRowsLocal`. -/
structure SkipEntry where
  rowNumber : Nat
  reason : String
  deriving Repr, DecidableEq

/-- The accumulator state of the filtering pass inside `transferToExcel`:
the `processed`/`skipped` counters, the rows collected by `data.filter`,
and the pushed skip entries. -/
structure FilterState where
  processed : Nat
  skipped : Nat
  validDateRows : List Record
  skippedRows : List SkipEntry
  deriving Repr, DecidableEq

/-- The per-row test of the filter callback: keep the row exactly when
`rowDate` is non-null and neither `rowDate < start` nor `rowDate > end`
(`Date` comparisons, so `false` on Invalid dates). -/
def rowKeep (startB endB : Option Int) (column : String) (row : Record) : Bool :=
  match parseDate (getCell row column) with
  | none => false
  | some rowDate => !(jsLt rowDate startB) && !(jsLt endB rowDate)

/-- The `data.filter((row, index) => ...)` pass of `transferToExcel`,
with `index` made explicit and the counters and lists threaded through. -/
def transferLoop (startB endB : Option Int) (column : String) :
    List Record → Nat → FilterState → FilterState
  | [], _, st => st
  | row :: rest, index, st =>
    let st' :=
      if rowKeep startB endB column row then
        { st with processed := st.processed + 1,
                  validDateRows := st.validDateRows ++ [row] }
      else
        { st with skipped := st.skipped + 1,
                  skippedRows := st.skippedRows ++
                    [⟨index + 2, skipReason⟩] }
    transferLoop startB endB column rest (index + 1) st'

/-- `transferToExcel(data, actualDateColumn)` (its pure filtering part):
build the widened day boundaries from the start/end date strings and run the
partitioning pass from index 0 with zeroed counters. -/
def transferToExcel (data : List Record) (actualDateColumn : String)
    (startDate endDate : String) : FilterState :=
  let startB := (jsDateParse startDate).map setHoursStart
  let endB := (jsDateParse endDate).map setHoursEnd
  transferLoop startB endB actualDateColumn data 0 ⟨0, 0, [], []⟩

/-- What `transferToExcel` does after the pass: with no kept rows it reports
"No valid data found within the specified date range." and emits nothing;
otherwise it writes the kept rows to the output workbook. -/
inductive Outcome where
  | noData
  | saveFile (rows : List Record)
  deriving Repr, DecidableEq

/-- The emit decision at the end of `transferToExcel`. -/
def transferOutcome (st : FilterState) : Outcome :=
  if st.validDateRows.length == 0 then .noData else .saveFile st.validDateRows

/-! ## Range validation and the run pipeline -/

/-- `validateDates()`: both date strings must be non-empty (truthy) and
`new Date(endDate) < new Date(startDate)` must not hold (`false` as well
whenever either side is Invalid). -/
def validateDates (startDate endDate : String) : Bool :=
  if startDate = "" || endDate = "" then false
  else !(jsLt (jsDateParse endDate) (jsDateParse startDate))

/-- Column resolution from `processCSVFile`: the first header whose trimmed,
lower-cased form equals the trimmed, lower-cased requested name. -/
def actualDateColumn (headers : List String) (dateColumn : String) : Option String :=
  List.find? (fun header => jsToLower (jsTrim header) == jsToLower (jsTrim dateColumn))
    headers

/-- The observable result of one run of `processFile` on a decoded CSV:
aborted by range validation, aborted by column resolution (carrying the
requested column name used in the error message), or a completed filter pass. -/
inductive RunResult where
  | invalidRange
  | columnNotFound (requested : String)
  | ok (st : FilterState)
  deriving Repr, DecidableEq

/-- `processCSVFile` after decoding: resolve the date column against the
headers; on failure report the missing column, otherwise run
`transferToExcel`. -/
def processCSVFile (headers : List String) (data : List Record)
    (dateColumn startDate endDate : String) : RunResult :=
  match actualDateColumn headers dateColumn with
  | none => .columnNotFound dateColumn
  | some column => .ok (transferToExcel data column startDate endDate)

/-- `processFile`: reset the counters, validate the date range (aborting
before any row work), then process the decoded file. -/
def processFile (headers : List String) (data : List Record)
    (dateColumn startDate endDate : String) : RunResult :=
  if validateDates startDate endDate then
    processCSVFile headers data dateColumn startDate endDate
  else .invalidRange

/-- The component state `(processedCount, skippedCount, skippedRows)` after a
run: `processFile` resets all three before doing anything, and only a
completed filter pass sets them again. -/
def countersOf : RunResult → Nat × Nat × List SkipEntry
  | .ok st => (st.processed, st.skipped, st.skippedRows)
  | _ => (0, 0, [])

/-! ## Specification-side functions

Renderings of §4.2 of the specification in its own words, used to state the
refinement claims against the implementation above. -/

/-- Spec §4.2: normalize a name by trimming surrounding whitespace and
lowercasing. -/
def specNormalizeName (s : String) : String := jsToLower (jsTrim s)

/-- Spec §4.2: the requested column resolves to the first header whose
normalized form matches the normalized requested name exactly. -/
def specResolveColumn (dateColumn : String) : List String → Option String
  | [] => none
  | header :: rest =>
    if specNormalizeName header = specNormalizeName dateColumn then some header
    else specResolveColumn dateColumn rest

/-- Spec §4.2/§3: a record is kept exactly when its cell under the resolved
column normalizes to a calendar date within
`[startDay 00:00:00.000, endDay 23:59:59.999]` inclusive (given here by the
millisecond bounds `lo` and `hi`). -/
def specKeepRow (column : String) (lo hi : Int) (row : Record) : Bool :=
  match parseDate (getCell row column) with
  | some (some d) => lo ≤ d && d ≤ hi
  | _ => false

/-- Spec §4.2: the skip list generated from consecutive row numbers
`index + 2`, one entry per record failing the keep test, in input order. -/
def specSkips (keep : Record → Bool) : Nat → List Record → List SkipEntry
  | _, [] => []
  | index, row :: rest =>
    if keep row then specSkips keep (index + 1) rest
    else ⟨index + 2, skipReason⟩ :: specSkips keep (index + 1) rest

/-! ## Helper lemmas -/

theorem jsDateParse_bound {s : String} {t : Int} (h : jsDateParse s = some t) :
    t.natAbs ≤ 8640000000000000 := by
  simp only [jsDateParse] at h
  repeat split at h
  all_goals simp_all

theorem jsMakeDate_bound {y m d t : Int} (h : jsMakeDate y m d = some t) :
    t.natAbs ≤ 8640000000000000 := by
  simp only [jsMakeDate] at h
  repeat split at h
  all_goals simp_all
  all_goals omega

/-- The normalizer never lets the Invalid Date sentinel escape: it returns
`null` or a valid, representable date. -/
theorem parseDate_cases (c : Option String) :
    parseDate c = none ∨
      ∃ t : Int, parseDate c = some (some t) ∧ t.natAbs ≤ 8640000000000000 := by
  cases c with
  | none => exact Or.inl rfl
  | some s =>
    by_cases hs : s = ""
    · exact Or.inl (by simp [parseDate, hs])
    · simp only [parseDate, hs, if_false]
      cases hjs : jsDateParse s with
      | some t =>
        exact Or.inr ⟨t, by simp [hjs, isValidDate], jsDateParse_bound hjs⟩
      | none =>
        simp only [hjs, isValidDate, Bool.false_eq_true, if_false]
        split
        · next monthS dayS yearS _ =>
          split
          · next month day year _ _ _ =>
            cases hmk : jsMakeDate (if year < 100 then year + 2000 else year)
                (month - 1) day with
            | some t =>
              exact Or.inr ⟨t, by simp [hmk, isValidDate], jsMakeDate_bound hmk⟩
            | none => exact Or.inl (by simp [hmk, isValidDate])
          · exact Or.inl rfl
        · exact Or.inl rfl

/-- `parseDate` never returns an Invalid Date. -/
theorem parseDate_ne_some_none (c : Option String) : parseDate c ≠ some none := by
  rcases parseDate_cases c with h | ⟨t, h, -⟩ <;> simp [h]

/-- Closed form of the partitioning pass: it extends the accumulator with
exactly the kept rows (a `filter`) and the indexed skip entries, and bumps the
counters by their lengths. -/
theorem transferLoop_eq (startB endB : Option Int) (column : String)
    (data : List Record) (index : Nat) (st : FilterState) :
    transferLoop startB endB column data index st =
      { processed := st.processed + (data.filter (rowKeep startB endB column)).length,
        skipped := st.skipped + (specSkips (rowKeep startB endB column) index data).length,
        validDateRows := st.validDateRows ++ data.filter (rowKeep startB endB column),
        skippedRows := st.skippedRows ++ specSkips (rowKeep startB endB column) index data } := by
  induction data generalizing index st with
  | nil => simp [transferLoop, specSkips]
  | cons row rest ih =>
    by_cases h : rowKeep startB endB column row
    · simp [transferLoop, specSkips, h, ih, List.filter_cons,
        Nat.add_assoc, Nat.add_comm, Nat.add_left_comm]
    · simp [transferLoop, specSkips, h, ih, List.filter_cons,
        Nat.add_assoc, Nat.add_comm, Nat.add_left_comm]

/-- Closed form of `transferToExcel` itself. -/
theorem transferToExcel_eq (data : List Record) (column startDate endDate : String) :
    transferToExcel data column startDate endDate =
      { processed := (data.filter (rowKeep ((jsDateParse startDate).map setHoursStart)
            ((jsDateParse endDate).map setHoursEnd) column)).length,
        skipped := (specSkips (rowKeep ((jsDateParse startDate).map setHoursStart)
            ((jsDateParse endDate).map setHoursEnd) column) 0 data).length,
        validDateRows := data.filter (rowKeep ((jsDateParse startDate).map setHoursStart)
            ((jsDateParse endDate).map setHoursEnd) column),
        skippedRows := specSkips (rowKeep ((jsDateParse startDate).map setHoursStart)
            ((jsDateParse endDate).map setHoursEnd) column) 0 data } := by
  simp [transferToExcel, transferLoop_eq]

/-- Each record contributes one entry: to the kept rows or to the skip list. -/
theorem filter_length_add_specSkips_length (keep : Record → Bool)
    (data : List Record) (index : Nat) :
    (data.filter keep).length + (specSkips keep index data).length = data.length := by
  induction data generalizing index with
  | nil => simp [specSkips]
  | cons row rest ih =>
    by_cases h : keep row
    · simp only [specSkips, h, List.filter_cons, if_true, List.length_cons]
      rw [← ih (index + 1)]
      omega
    · simp only [specSkips, h, List.filter_cons, Bool.false_eq_true, if_false,
        List.length_cons]
      rw [← ih (index + 1)]
      omega

/-- On defined (non-`NaN`) bounds, the implementation's keep test agrees with
the specification's inclusive-interval test. -/
theorem rowKeep_eq_specKeepRow (lo hi : Int) (column : String) (row : Record) :
    rowKeep (some lo) (some hi) column row = specKeepRow column lo hi row := by
  unfold rowKeep specKeepRow
  cases hp : parseDate (getCell row column) with
  | none => rfl
  | some jd =>
    cases jd with
    | none => exact absurd hp (parseDate_ne_some_none _)
    | some d =>
      simp only [jsLt]
      by_cases h1 : lo ≤ d <;> by_cases h2 : d ≤ hi <;>
        simp [h1, h2, Int.not_le.mpr, Int.not_lt.mpr]
      · omega
      · omega

/-- `dropWhile` never lengthens a list. -/
theorem dropWhile_length_le (p : Char → Bool) (cs : List Char) :
    (cs.dropWhile p).length ≤ cs.length := by
  induction cs with
  | nil => simp
  | cons c cs ih => by_cases h : p c <;> simp [List.dropWhile_cons, h] <;> omega

/-- Trimming never lengthens a character list. -/
theorem trimChars_length_le (cs : List Char) : (trimChars cs).length ≤ cs.length := by
  unfold trimChars
  have h1 := dropWhile_length_le isWsCh cs
  have h2 := dropWhile_length_le isWsCh (cs.dropWhile isWsCh).reverse
  simp only [List.length_reverse] at h2 ⊢
  omega

/-- An ASCII digit's code point lies in `[48, 57]`. -/
theorem isDigitCh_bounds {c : Char} (h : isDigitCh c = true) :
    48 ≤ c.toNat ∧ c.toNat ≤ 57 := by
  simpa [isDigitCh] using h

/-- `Number` on at most two characters yields a value in `[-9, 99]`. -/
theorem jsNumberChars_short_bounds {cs : List Char} {v : Int}
    (h : jsNumberChars cs = some v) (hlen : cs.length ≤ 2) : -9 ≤ v ∧ v ≤ 99 := by
  match cs, hlen with
  | [], _ =>
    simp only [jsNumberChars, Option.some.injEq] at h
    omega
  | [a], _ =>
    by_cases hap : a = '+'
    · simp [jsNumberChars, hap] at h
    · by_cases ham : a = '-'
      · simp [jsNumberChars, ham] at h
      · simp only [jsNumberChars, beq_iff_eq, hap, ham, if_false, List.all_cons,
          List.all_nil, Bool.and_true] at h
        split at h
        · next hd =>
          obtain ⟨h48, h57⟩ := isDigitCh_bounds hd
          simp only [Option.some.injEq] at h
          simp only [digitsToInt, List.foldl] at h
          omega
        · simp at h
  | [a, b], _ =>
    by_cases hap : a = '+'
    · subst hap
      simp only [jsNumberChars, beq_self_eq_true, if_true, List.all_cons,
        List.all_nil, Bool.and_true, ne_eq, reduceCtorEq, not_false_eq_true,
        true_and] at h
      split at h
      · next hd =>
        obtain ⟨h48, h57⟩ := isDigitCh_bounds hd
        simp only [Option.some.injEq] at h
        simp only [digitsToInt, List.foldl] at h
        omega
      · simp at h
    · by_cases ham : a = '-'
      · subst ham
        simp only [jsNumberChars, beq_iff_eq, hap, if_false, beq_self_eq_true,
          if_true, List.all_cons, List.all_nil, Bool.and_true, ne_eq,
          reduceCtorEq, not_false_eq_true, true_and] at h
        split at h
        · next hd =>
          obtain ⟨h48, h57⟩ := isDigitCh_bounds hd
          simp only [Option.some.injEq] at h
          simp only [digitsToInt, List.foldl] at h
          omega
        · simp at h
      · simp only [jsNumberChars, beq_iff_eq, hap, ham, if_false, List.all_cons,
          List.all_nil, Bool.and_true, Bool.and_eq_true] at h
        split at h
        · next hall =>
          obtain ⟨ha', hb'⟩ := hall
          obtain ⟨a48, a57⟩ := isDigitCh_bounds ha'
          obtain ⟨b48, b57⟩ := isDigitCh_bounds hb'
          simp only [Option.some.injEq] at h
          simp only [digitsToInt, List.foldl] at h
          omega
        · simp at h
  | _ :: _ :: _ :: _, hlen => simp at hlen

/-- `Number` on a string of fewer than three characters yields a value in
`[-9, 99]`. -/
theorem jsNumber_short_bounds {s : String} {v : Int}
    (h : jsNumber s = some v) (hlen : s.length < 3) : -9 ≤ v ∧ v ≤ 99 := by
  apply jsNumberChars_short_bounds h
  have := trimChars_length_le s.toList
  have hls : s.toList.length = s.length := rfl
  omega

/-- The skip list in terms of the enumerated input: one entry with row number
`index + 2` for each record failing the keep test, in order. -/
theorem specSkips_eq_enumFrom (keep : Record → Bool) (data : List Record)
    (index : Nat) :
    specSkips keep index data =
      ((List.enumFrom index data).filter (fun p => !keep p.2)).map
        (fun p => ⟨p.1 + 2, skipReason⟩) := by
  induction data generalizing index with
  | nil => simp [specSkips]
  | cons row rest ih =>
    by_cases h : keep row
    · simp [specSkips, h, List.enumFrom, List.filter_cons, ih]
    · simp [specSkips, h, List.enumFrom, List.filter_cons, ih]

/-- When the general parse fails, the slash fallback is exactly the JS `Date`
constructor on the three `Number`-parsed components (with the `+2000`
adjustment for year values below 100), `null` when the construction is
Invalid. -/
theorem parseDate_slash_eq {s monthS dayS yearS : String} {month day year : Int}
    (hs : s ≠ "") (hgen : jsDateParse s = none)
    (hsplit : jsSplit '/' s = [monthS, dayS, yearS])
    (hm : jsNumber monthS = some month) (hd : jsNumber dayS = some day)
    (hy : jsNumber yearS = some year) :
    parseDate (some s) =
      (jsMakeDate (if year < 100 then year + 2000 else year) (month - 1) day).map
        some := by
  simp only [parseDate, hs, if_false, hgen, isValidDate, Bool.false_eq_true,
    hsplit, hm, hd, hy]
  cases hmk : jsMakeDate (if year < 100 then year + 2000 else year) (month - 1) day with
  | none => simp [isValidDate, hmk]
  | some t => simp [isValidDate, hmk]

/-! ## The claims -/

/-- C10: on every cell value (a string or absent), `parseDate` is total and
returns either a date passing the validity check — a representable calendar
date, never the Invalid Date sentinel — or the failure value `null`; the
invalid-date branch can never escape to the caller. -/
theorem parseDate_total_valid_or_null (c : Option String) :
    (parseDate c = none ∨
      ∃ t : Int, parseDate c = some (some t) ∧ t.natAbs ≤ 8640000000000000) ∧
    parseDate c ≠ some none :=
  ⟨parseDate_cases c, parseDate_ne_some_none c⟩

/-- C2: for every input record sequence, the filter pass counts satisfy
`keptCount + skippedCount = totalCount`, with `keptCount` the number of kept
records, `skippedCount` the length of the skip list, and `totalCount` the
input length. -/
theorem counts_partition_total (data : List Record)
    (column startDate endDate : String) :
    (transferToExcel data column startDate endDate).processed +
        (transferToExcel data column startDate endDate).skipped = data.length ∧
    (transferToExcel data column startDate endDate).processed =
        (transferToExcel data column startDate endDate).validDateRows.length ∧
    (transferToExcel data column startDate endDate).skipped =
        (transferToExcel data column startDate endDate).skippedRows.length := by
  rw [transferToExcel_eq]
  exact ⟨filter_length_add_specSkips_length _ _ _, rfl, rfl⟩

/-- C9: every skipped record is reported with row number equal to its 0-based
index in the data records plus 2 (first data record is row 2, the second row
3, and so on), and every reported row number is at least 2. -/
theorem skip_row_numbers_index_plus_two (data : List Record)
    (column startDate endDate : String) :
    (transferToExcel data column startDate endDate).skippedRows =
      ((data.enum).filter (fun p =>
          !rowKeep ((jsDateParse startDate).map setHoursStart)
            ((jsDateParse endDate).map setHoursEnd) column p.2)).map
        (fun p => ⟨p.1 + 2, skipReason⟩) ∧
    ((transferToExcel data column startDate endDate).skippedRows).all
      (fun entry => decide (2 ≤ entry.rowNumber)) = true := by
  have henum : data.enum = List.enumFrom 0 data := rfl
  constructor
  · rw [transferToExcel_eq, henum]
    exact specSkips_eq_enumFrom _ _ _
  · rw [transferToExcel_eq]
    rw [specSkips_eq_enumFrom]
    simp only [List.all_eq_true, List.mem_map, List.mem_filter]
    rintro entry ⟨p, -, rfl⟩
    simp

/-- C1: with a resolved column and a valid range, the filter keeps a record
exactly when its cell normalizes to a calendar date inside
`[startDay 00:00:00.000, endDay 23:59:59.999]` (kept rows in original
relative order), and it skips a record — with one skip entry — exactly when
the cell fails to normalize or the date falls strictly outside the interval. -/
theorem kept_iff_date_in_range (data : List Record)
    (column startDate endDate : String) (s e : Int)
    (hs : jsDateParse startDate = some s) (he : jsDateParse endDate = some e) :
    (transferToExcel data column startDate endDate).validDateRows =
      data.filter (specKeepRow column (setHoursStart s) (setHoursEnd e)) ∧
    (transferToExcel data column startDate endDate).skippedRows =
      specSkips (specKeepRow column (setHoursStart s) (setHoursEnd e)) 0 data := by
  have hk : rowKeep ((jsDateParse startDate).map setHoursStart)
      ((jsDateParse endDate).map setHoursEnd) column =
      specKeepRow column (setHoursStart s) (setHoursEnd e) := by
    funext row
    rw [hs, he]
    exact rowKeep_eq_specKeepRow _ _ _ _
  rw [transferToExcel_eq, hk]
  exact ⟨rfl, rfl⟩

/-- C1 witness: Scenario A — ISO row kept, later ISO row and a rolled-over
slash row skipped over the January 2024 range. -/
theorem kept_iff_date_in_range_witness :
    jsDateParse "2024-01-01" = some 1704067200000 ∧
    jsDateParse "2024-01-31" = some 1706659200000 ∧
    ((transferToExcel
        [[("Date", "2024-01-15")], [("Date", "2024-02-01")], [("Date", "13/40/2024")]]
        "Date" "2024-01-01" "2024-01-31").validDateRows =
      List.filter
        (specKeepRow "Date" (setHoursStart 1704067200000) (setHoursEnd 1706659200000))
        [[("Date", "2024-01-15")], [("Date", "2024-02-01")], [("Date", "13/40/2024")]] ∧
    (transferToExcel
        [[("Date", "2024-01-15")], [("Date", "2024-02-01")], [("Date", "13/40/2024")]]
        "Date" "2024-01-01" "2024-01-31").skippedRows =
      specSkips
        (specKeepRow "Date" (setHoursStart 1704067200000) (setHoursEnd 1706659200000))
        0
        [[("Date", "2024-01-15")], [("Date", "2024-02-01")], [("Date", "13/40/2024")]]) ∧
    (transferToExcel
        [[("Date", "2024-01-15")], [("Date", "2024-02-01")], [("Date", "13/40/2024")]]
        "Date" "2024-01-01" "2024-01-31").validDateRows = [[("Date", "2024-01-15")]] ∧
    (transferToExcel
        [[("Date", "2024-01-15")], [("Date", "2024-02-01")], [("Date", "13/40/2024")]]
        "Date" "2024-01-01" "2024-01-31").skippedRows =
      [⟨3, skipReason⟩, ⟨4, skipReason⟩] :=
  ⟨by decide, by decide,
    kept_iff_date_in_range _ "Date" "2024-01-01" "2024-01-31" _ _
      (by decide) (by decide),
    by decide, by decide⟩

/-- C4: column resolution trims and lowercases both the requested name and
every header and resolves to the first header whose normalized form equals
the normalized requested name; in particular `" date of visit "` matches the
header `"Date of Visit"`. -/
theorem column_resolution_normalized_first_match :
    (∀ (headers : List String) (dateColumn : String),
        actualDateColumn headers dateColumn = specResolveColumn dateColumn headers) ∧
    actualDateColumn ["Date of Visit", "Name"] " date of visit " =
      some "Date of Visit" := by
  refine ⟨fun headers dateColumn => ?_, by decide⟩
  induction headers with
  | nil => rfl
  | cons h t ih =>
    by_cases hq : specNormalizeName h = specNormalizeName dateColumn
    · rw [actualDateColumn,
        List.find?_cons_of_pos _ (by simpa [specNormalizeName] using hq),
        specResolveColumn, if_pos hq]
    · rw [actualDateColumn,
        List.find?_cons_of_neg _ (by simpa [specNormalizeName] using hq),
        specResolveColumn, if_neg hq]
      exact ih

/-- C6: if the start or end date is missing, or the end day is strictly
earlier than the start day, the run fails with the invalid-range error before
any row is examined: no filter result is produced and the counters stay at
their reset zeros. -/
theorem invalid_range_aborts_run (headers : List String) (data : List Record)
    (dateColumn startDate endDate : String)
    (h : startDate = "" ∨ endDate = "" ∨
      ∃ s e : Int, jsDateParse startDate = some s ∧ jsDateParse endDate = some e ∧
        e < s) :
    processFile headers data dateColumn startDate endDate = .invalidRange ∧
    countersOf (processFile headers data dateColumn startDate endDate) =
      (0, 0, []) := by
  have hv : validateDates startDate endDate = false := by
    rcases h with h | h | ⟨s, e, hps, hpe, hlt⟩
    · simp [validateDates, h]
    · simp [validateDates, h]
    · by_cases h1 : startDate = ""
      · simp [validateDates, h1]
      · by_cases h2 : endDate = ""
        · simp [validateDates, h2]
        · simp [validateDates, h1, h2, hps, hpe, jsLt, hlt]
  constructor <;> simp [processFile, hv, countersOf]

/-- C6 witness: Scenario D — start day later than end day. -/
theorem invalid_range_aborts_run_witness :
    (∃ s e : Int, jsDateParse "2024-05-10" = some s ∧
        jsDateParse "2024-05-01" = some e ∧ e < s) ∧
    (processFile ["Date"] [[("Date", "2024-05-05")]] "Date" "2024-05-10"
        "2024-05-01" = .invalidRange ∧
      countersOf (processFile ["Date"] [[("Date", "2024-05-05")]] "Date"
        "2024-05-10" "2024-05-01") = (0, 0, [])) :=
  ⟨⟨daysFromCivil 2024 5 10 * msPerDay, daysFromCivil 2024 5 1 * msPerDay,
      by decide, by decide, by decide⟩,
    invalid_range_aborts_run ["Date"] [[("Date", "2024-05-05")]] "Date"
      "2024-05-10" "2024-05-01"
      (Or.inr (Or.inr ⟨daysFromCivil 2024 5 10 * msPerDay,
        daysFromCivil 2024 5 1 * msPerDay, by decide, by decide, by decide⟩))⟩

/-- C7: if no header matches the requested column name under the trimmed,
lower-cased comparison, the run fails with the column-not-found error
carrying the originally requested name; no records are processed and no
filter result is produced. -/
theorem column_not_found_aborts_run (headers : List String) (data : List Record)
    (dateColumn startDate endDate : String)
    (hv : validateDates startDate endDate = true)
    (h : ∀ header ∈ headers,
      specNormalizeName header ≠ specNormalizeName dateColumn) :
    processFile headers data dateColumn startDate endDate =
      .columnNotFound dateColumn ∧
    countersOf (processFile headers data dateColumn startDate endDate) =
      (0, 0, []) := by
  have hc : actualDateColumn headers dateColumn = none := by
    rw [actualDateColumn, List.find?_eq_none]
    intro x hx
    simpa [specNormalizeName] using h x hx
  constructor <;> simp [processFile, hv, processCSVFile, hc, countersOf]

/-- C7 witness: Scenario C — requesting `"visit date"` against headers
`["Date of Visit", "Name"]`. -/
theorem column_not_found_aborts_run_witness :
    validateDates "2024-01-01" "2024-01-31" = true ∧
    (∀ header ∈ ["Date of Visit", "Name"],
      specNormalizeName header ≠ specNormalizeName "visit date") ∧
    (processFile ["Date of Visit", "Name"] [] "visit date" "2024-01-01"
        "2024-01-31" = .columnNotFound "visit date" ∧
      countersOf (processFile ["Date of Visit", "Name"] [] "visit date"
        "2024-01-01" "2024-01-31") = (0, 0, [])) :=
  ⟨by decide, by decide,
    column_not_found_aborts_run ["Date of Visit", "Name"] [] "visit date"
      "2024-01-01" "2024-01-31" (by decide) (by decide)⟩

/-- C8: when column resolution succeeds and every record is skipped, the run
still completes with the full filter result — empty kept rows, fully
populated skip list, counts `0` kept and `n` skipped — and the zero-kept
outcome is the reported no-data condition, not an error: no file is emitted. -/
theorem all_skipped_still_full_result (headers : List String) (data : List Record)
    (dateColumn startDate endDate column : String)
    (hv : validateDates startDate endDate = true)
    (hc : actualDateColumn headers dateColumn = some column)
    (hall : ∀ row ∈ data,
      rowKeep ((jsDateParse startDate).map setHoursStart)
        ((jsDateParse endDate).map setHoursEnd) column row = false) :
    processFile headers data dateColumn startDate endDate =
      .ok (transferToExcel data column startDate endDate) ∧
    (transferToExcel data column startDate endDate).validDateRows = [] ∧
    (transferToExcel data column startDate endDate).processed = 0 ∧
    (transferToExcel data column startDate endDate).skipped = data.length ∧
    (transferToExcel data column startDate endDate).skippedRows.length =
      data.length ∧
    transferOutcome (transferToExcel data column startDate endDate) = .noData := by
  have hfil : data.filter (rowKeep ((jsDateParse startDate).map setHoursStart)
      ((jsDateParse endDate).map setHoursEnd) column) = [] :=
    List.filter_eq_nil_iff.mpr (fun a ha => by simp [hall a ha])
  have hlen := filter_length_add_specSkips_length
    (rowKeep ((jsDateParse startDate).map setHoursStart)
      ((jsDateParse endDate).map setHoursEnd) column) data 0
  rw [hfil] at hlen
  simp only [List.length_nil, Nat.zero_add] at hlen
  refine ⟨by simp [processFile, hv, processCSVFile, hc], ?_, ?_, ?_, ?_, ?_⟩
  · rw [transferToExcel_eq]
    exact hfil
  · rw [transferToExcel_eq]
    simpa using congrArg List.length hfil
  · rw [transferToExcel_eq]
    exact hlen
  · rw [transferToExcel_eq]
    exact hlen
  · rw [transferToExcel_eq]
    simp [transferOutcome, hfil]

/-- C8 witness: Scenario E — a single out-of-range row, all rows skipped. -/
theorem all_skipped_still_full_result_witness :
    validateDates "2024-01-01" "2024-01-31" = true ∧
    actualDateColumn ["Date"] "Date" = some "Date" ∧
    (∀ row ∈ [[("Date", "1999-01-01")]],
      rowKeep ((jsDateParse "2024-01-01").map setHoursStart)
        ((jsDateParse "2024-01-31").map setHoursEnd) "Date" row = false) ∧
    (processFile ["Date"] [[("Date", "1999-01-01")]] "Date" "2024-01-01"
        "2024-01-31" =
      .ok (transferToExcel [[("Date", "1999-01-01")]] "Date" "2024-01-01"
        "2024-01-31") ∧
    (transferToExcel [[("Date", "1999-01-01")]] "Date" "2024-01-01"
        "2024-01-31").validDateRows = [] ∧
    (transferToExcel [[("Date", "1999-01-01")]] "Date" "2024-01-01"
        "2024-01-31").processed = 0 ∧
    (transferToExcel [[("Date", "1999-01-01")]] "Date" "2024-01-01"
        "2024-01-31").skipped = [[("Date", "1999-01-01")]].length ∧
    (transferToExcel [[("Date", "1999-01-01")]] "Date" "2024-01-01"
        "2024-01-31").skippedRows.length = [[("Date", "1999-01-01")]].length ∧
    transferOutcome (transferToExcel [[("Date", "1999-01-01")]] "Date"
        "2024-01-01" "2024-01-31") = .noData) :=
  ⟨by decide, by decide, by decide,
    all_skipped_still_full_result ["Date"] [[("Date", "1999-01-01")]] "Date"
      "2024-01-01" "2024-01-31" "Date" (by decide) (by decide) (by decide)⟩

/-- C3 counterexample: `"13/40/2024"` does not normalize to Unparseable — the
fallback's `Date` constructor rolls month 13 / day 40 over to 2025-02-09. -/
theorem overflow_date_not_unparseable_cx :
    parseDate (some "13/40/2024") =
      some (some (daysFromCivil 2025 2 9 * msPerDay)) ∧
    parseDate (some "13/40/2024") ≠ none :=
  ⟨by decide, by decide⟩

/-- C3 (amended): a slash-delimited value with three numeric components whose
month/day overflow their calendar ranges is not rejected: when the general
parse fails, the normalizer hands the components to the `Date` constructor,
which rolls the overflow over (month 13 into the next year, excess days into
following months), so `"13/40/2024"` normalizes to 2025-02-09 rather than
Unparseable. -/
theorem slash_components_roll_over (s monthS dayS yearS : String)
    (month day year : Int)
    (hs : s ≠ "") (hgen : jsDateParse s = none)
    (hsplit : jsSplit '/' s = [monthS, dayS, yearS])
    (hm : jsNumber monthS = some month) (hd : jsNumber dayS = some day)
    (hy : jsNumber yearS = some year) :
    parseDate (some s) =
      (jsMakeDate (if year < 100 then year + 2000 else year) (month - 1)
        day).map some ∧
    parseDate (some "13/40/2024") =
      some (some (daysFromCivil 2025 2 9 * msPerDay)) :=
  ⟨parseDate_slash_eq hs hgen hsplit hm hd hy, by decide⟩

/-- C3 witness: the amended statement applied at `"13/40/2024"`. -/
theorem slash_components_roll_over_witness :
    jsSplit '/' "13/40/2024" = ["13", "40", "2024"] ∧
    jsNumber "13" = some 13 ∧ jsNumber "40" = some 40 ∧
    jsNumber "2024" = some 2024 ∧ jsDateParse "13/40/2024" = none ∧
    (parseDate (some "13/40/2024") =
        (jsMakeDate (if (2024 : Int) < 100 then 2024 + 2000 else 2024)
          (13 - 1) 40).map some ∧
      parseDate (some "13/40/2024") =
        some (some (daysFromCivil 2025 2 9 * msPerDay))) :=
  ⟨by decide, by decide, by decide, by decide, by decide,
    slash_components_roll_over "13/40/2024" "13" "40" "2024" 13 40 2024
      (by decide) (by decide) (by decide) (by decide) (by decide) (by decide)⟩

/-- C5: a slash-delimited value with three numeric components whose year
component has fewer than three digits gets 2000 added to the year and is
constructed from (year, month, day) with 1-based month and day; in
particular `"3/5/23"` normalizes to the calendar day 2023-03-05. -/
theorem two_digit_year_plus_2000 (s monthS dayS yearS : String)
    (month day year : Int)
    (hs : s ≠ "") (hgen : jsDateParse s = none)
    (hsplit : jsSplit '/' s = [monthS, dayS, yearS])
    (hm : jsNumber monthS = some month) (hd : jsNumber dayS = some day)
    (hy : jsNumber yearS = some year) (hlen : yearS.length < 3) :
    parseDate (some s) = (jsMakeDate (year + 2000) (month - 1) day).map some ∧
    parseDate (some "3/5/23") =
      some (some (daysFromCivil 2023 3 5 * msPerDay)) := by
  have hb := jsNumber_short_bounds hy hlen
  have hif : (if year < 100 then year + 2000 else year) = year + 2000 :=
    if_pos (by omega)
  refine ⟨?_, by decide⟩
  rw [← hif]
  exact parseDate_slash_eq hs hgen hsplit hm hd hy

/-- C5 witness: the theorem applied at `"3/5/23"`. -/
theorem two_digit_year_plus_2000_witness :
    jsSplit '/' "3/5/23" = ["3", "5", "23"] ∧
    jsNumber "3" = some 3 ∧ jsNumber "5" = some 5 ∧ jsNumber "23" = some 23 ∧
    jsDateParse "3/5/23" = none ∧ ("23" : String).length < 3 ∧
    (parseDate (some "3/5/23") =
        (jsMakeDate (23 + 2000) (3 - 1) 5).map some ∧
      parseDate (some "3/5/23") =
        some (some (daysFromCivil 2023 3 5 * msPerDay))) :=
  ⟨by decide, by decide, by decide, by decide, by decide, by decide,
    two_digit_year_plus_2000 "3/5/23" "3" "5" "23" 3 5 23
      (by decide) (by decide) (by decide) (by decide) (by decide) (by decide)
      (by decide)⟩

end ExcelSplitter
